import Mathlib

/-!
Verification development for the unit-value library: a shallow embedding of
the core (pattern utilities in src/utils.js, the UnitValue class and the
pairwise reconciliation routine getValuesAndUnits in src/unit-value.js),
together with theorems settling the specification claims.

Modelling conventions:
* JavaScript strings are lists of characters (JStr).
* JavaScript numbers are modelled as exact rationals; Number#toString and
  parseFloat are modelled on the plain-decimal display forms that arise here
  (no scientific notation, which the library itself declares out of scope).
* Exceptions are an Except monad with the error taxonomy of the source
  (UnitsError, TypeError, plain Error).
* The observable in-place mutation of a UnitValue argument by UnitValue.parse
  is modelled separately by a store-passing variant (parseRef and friends)
  in which UnitValue arguments are references into a store.
-/

abbrev JStr := List Char

/-- The characters matched by the JavaScript regex class \s: ASCII whitespace
plus the Unicode space and line-separator code points that matter here (the
remaining exotic Unicode space code points are omitted from the model and
never arise in the claims). -/
def isJsSpace (c : Char) : Bool :=
  decide (c ∈ [' ', '\t', '\n', '\x0b', '\x0c', '\r', '\u00A0', '\u2028', '\u2029'])

/-- JavaScript line terminators, which the regex metacharacter for
"any character" does not match. -/
def isLineTerminator (c : Char) : Bool :=
  decide (c ∈ ['\n', '\r', '\u2028', '\u2029'])

/-- src/utils.js numberMatch, the anchored pattern: one or more digits,
an optional decimal point, then zero or more digits, and nothing else.
Matching is a full-string test, so it is equivalent to: a nonempty digit
prefix, after which either nothing remains or a dot followed only by digits. -/
def numberMatch (s : JStr) : Bool :=
  let ds := s.takeWhile Char.isDigit
  let rest := s.dropWhile Char.isDigit
  decide (ds ≠ []) &&
    (rest.isEmpty || (rest.head? == some '.' && rest.tail.all Char.isDigit))

/-- Validity of the second capture group of unitValueMatch: the group is
nonempty, its first character is not whitespace, a digit, or a dot, and the
remaining characters contain no line terminator (the JavaScript pattern for
"any character" excludes line terminators). -/
def validUnitsGroup (g : JStr) : Bool :=
  match g with
  | [] => false
  | c :: rest =>
    !(isJsSpace c) && !(Char.isDigit c) && !(c == '.') &&
      rest.all (fun d => !(isLineTerminator d))

/-- The final stage of unitValueMatch: given the numeric capture group and the
remainder of the input, an optional single whitespace separator is consumed
and the rest must form a valid units group. -/
def uvmTail (g1 r2 : JStr) : Option (JStr × JStr) :=
  match r2 with
  | [] => none
  | c :: t =>
    if isJsSpace c then (if validUnitsGroup t then some (g1, t) else none)
    else (if validUnitsGroup (c :: t) then some (g1, (c :: t)) else none)

/-- src/utils.js unitValueMatch, the anchored pattern: a numeric group of one
or more digits with an optional dot and further digits, an optional single
whitespace character, then a units group that does not start with whitespace,
a digit, or a dot. The greedy decomposition implemented here is the unique
viable one: backtracking into the numeric group always leaves the units
group starting with a digit or a dot, and declining the optional whitespace
leaves it starting with whitespace, so every alternative the regex engine
would try after the greedy one fails. -/
def unitValueMatch (s : JStr) : Option (JStr × JStr) :=
  let d1 := s.takeWhile Char.isDigit
  let r1 := s.dropWhile Char.isDigit
  if d1 = [] then none
  else if r1.head? = some '.' then
    uvmTail (d1 ++ '.' :: (r1.tail.takeWhile Char.isDigit))
      (r1.tail.dropWhile Char.isDigit)
  else uvmTail d1 r1

/-- src/utils.js toggle: v % 2 + 1, documented as toggling 1 to 2 and 2 to 1. -/
def toggle (v : Nat) : Nat := v % 2 + 1

/-- Value of a digit string read in base 10. -/
def digitsVal (ds : JStr) : Nat :=
  ds.foldl (fun a c => 10 * a + (c.toNat - 48)) 0

/-- JavaScript parseFloat restricted to the inputs that arise in this
development: an optional sign followed by a plain decimal (the first capture
group of unitValueMatch is always an unsigned plain decimal, and the display
form of a value is a signed plain decimal). Leading-whitespace skipping,
exponents and the NaN result are outside the modelled domain. -/
def parseFloatUnsigned (s : JStr) : ℚ :=
  let ip := s.takeWhile Char.isDigit
  let rest := s.dropWhile Char.isDigit
  let fp := match rest with
    | '.' :: t => t.takeWhile Char.isDigit
    | _ => []
  (digitsVal ip : ℚ) + (digitsVal fp : ℚ) / ((10 : ℚ) ^ fp.length)

def parseFloat (s : JStr) : ℚ :=
  match s with
  | '-' :: t => - parseFloatUnsigned t
  | '+' :: t => parseFloatUnsigned t
  | _ => parseFloatUnsigned s

/-- Decimal digits of a natural number, most significant first. -/
def natDigits (n : Nat) : JStr := Nat.toDigits 10 n

/-- Smallest exponent k with 0 < k ≤ 20 such that q * 10 ^ k is an integer
(the numbers displayed by JavaScript in plain decimal all have one). -/
def decExpSearch (q : ℚ) : Option Nat :=
  (List.range 21).find? (fun k => (q * (10 : ℚ) ^ k).den == 1)

/-- Display form of a nonnegative number: either an integer or a finite plain
decimal. For rationals admitting neither (which never arise as JavaScript
display values in scope, since those are shown in scientific notation), the
fallback branch is not display-faithful; every general theorem that depends
on the display form carries the hypotheses that pin it down. -/
def jsNumToStringPos (q : ℚ) : JStr :=
  if q.den = 1 then natDigits q.num.toNat
  else
    match decExpSearch q with
    | some k =>
      let scaled := (q * (10 : ℚ) ^ k).num.toNat
      let ip := scaled / 10 ^ k
      let fp := scaled % 10 ^ k
      let fpd := natDigits fp
      natDigits ip ++ '.' :: (List.replicate (k - fpd.length) '0' ++ fpd)
    | none => natDigits q.num.toNat

/-- JavaScript Number#toString (shortest round-trip decimal display) for the
numbers in scope: sign followed by the nonnegative display form. -/
def jsNumToString (q : ℚ) : JStr :=
  if q < 0 then '-' :: jsNumToStringPos (-q) else jsNumToStringPos q

/-- The UnitValue value object: a numeric magnitude and a textual unit label. -/
structure UnitValue where
  value : ℚ
  units : JStr
deriving DecidableEq, Repr, Inhabited

/-- The error taxonomy of the source: UnitsError (src/units-error.js),
TypeError, and plain Error. -/
inductive JSError where
  | unitsError (msg : String)
  | typeError (msg : String)
  | plainError (msg : String)
deriving DecidableEq, Repr

def badTypeMsg : String := "Expected value to be a string, number or UnitValue"

def missingUnitsMsg : String := "For values without units, units must be specified"

/-- Source text uses a contraction in this message; rendered here without it. -/
def parseStringMsg : String :=
  "The string passed does not look like <value><units> e.g. 10px"

def bothMissingMsg : String :=
  "At least one value should contain units, or separate units must be specified."

def mismatchMsg : String :=
  "The units of both values do not match. Please specify units."

/-- The TypeError raised by the JavaScript runtime when a property is read
from undefined, as happens in getValuesAndUnits when toggle produces an
index past the end of the values array. -/
def undefinedUnitsMsg : String :=
  "Cannot read properties of undefined (reading units)"

/-- UnitValue.parseString: match against unitValueMatch; on failure raise a
TypeError, on success build a UnitValue from parseFloat of the first group
and the second group verbatim. The typeof guard of the source is statically
satisfied here because the argument type is already a primitive string. -/
def UnitValue.parseString (s : JStr) : Except JSError UnitValue :=
  match unitValueMatch s with
  | none => .error (.typeError parseStringMsg)
  | some (m1, m2) => .ok ⟨parseFloat m1, m2⟩

/-- The four runtime shapes UnitValue.parse accepts, plus a shape for
everything else (other object types, undefined, booleans, ...). -/
inductive JSValue where
  | num (n : ℚ)
  | boxedNum (n : ℚ)
  | str (s : JStr)
  | boxedStr (s : JStr)
  | uv (q : UnitValue)
  | other
deriving DecidableEq, Repr

/-- The shared number/string arm of the fallthrough switch in UnitValue.parse:
if the text is a bare number then explicit units are mandatory (UnitsError
otherwise) and are appended; the resulting text goes to parseString. -/
def parseText (s : JStr) (units : Option JStr) : Except JSError UnitValue :=
  if numberMatch s then
    match units with
    | none => .error (.unitsError missingUnitsMsg)
    | some u => UnitValue.parseString (s ++ u)
  else UnitValue.parseString s

/-- The final unit-override step of UnitValue.parse. The source guards it
with JavaScript truthiness, so an empty units string does not override. -/
def applyUnitsOverride (q : UnitValue) (units : Option JStr) : UnitValue :=
  match units with
  | some u => if u = [] then q else { q with units := u }
  | none => q

/-- UnitValue.parse: dispatch on the runtime shape of the argument; numbers
and strings (primitive or boxed) go through the shared text path, an existing
UnitValue passes through, anything else is a TypeError; in all successful
cases a truthy explicit units argument overrides the units field at the end. -/
def UnitValue.parse (v : JSValue) (units : Option JStr) : Except JSError UnitValue :=
  match v with
  | .num n =>
    match parseText (jsNumToString n) units with
    | .ok w => .ok (applyUnitsOverride w units)
    | .error e => .error e
  | .boxedNum n =>
    match parseText (jsNumToString n) units with
    | .ok w => .ok (applyUnitsOverride w units)
    | .error e => .error e
  | .str s =>
    match parseText s units with
    | .ok w => .ok (applyUnitsOverride w units)
    | .error e => .error e
  | .boxedStr s =>
    match parseText s units with
    | .ok w => .ok (applyUnitsOverride w units)
    | .error e => .error e
  | .uv q => .ok (applyUnitsOverride q units)
  | .other => .error (.typeError badTypeMsg)

/-- Decidable equality on Except, used to evaluate the embedded functions at
concrete inputs inside proofs. -/
instance exceptDecEq {ε α : Type} [DecidableEq ε] [DecidableEq α] :
    DecidableEq (Except ε α) := fun a b =>
  match a, b with
  | .ok x, .ok y => decidable_of_iff (x = y) (by simp)
  | .error x, .error y => decidable_of_iff (x = y) (by simp)
  | .ok _, .error _ => isFalse (fun hc => Except.noConfusion hc)
  | .error _, .ok _ => isFalse (fun hc => Except.noConfusion hc)

/-- The record returned by getValuesAndUnits. -/
structure GVU where
  value1 : ℚ
  value2 : ℚ
  units : JStr
deriving DecidableEq, Repr

/-- The indexed for-loop of getValuesAndUnits: attempt UnitValue.parse on each
entry; a UnitsError records the index in the retry list and leaves a hole in
the values array (modelled as none); any other error propagates immediately,
aborting the loop. -/
def tryParseLoop (vs : List JSValue) (u : Option JStr) (i : Nat) :
    Except JSError (List (Option UnitValue) × List Nat) :=
  match vs with
  | [] => .ok ([], [])
  | w :: rest =>
    match UnitValue.parse w u with
    | .ok q =>
      match tryParseLoop rest u (i + 1) with
      | .ok (values, retry) => .ok (some q :: values, retry)
      | .error e => .error e
    | .error (.unitsError _) =>
      match tryParseLoop rest u (i + 1) with
      | .ok (values, retry) => .ok (none :: values, i :: retry)
      | .error e => .error e
    | .error e => .error e

/-- getValuesAndUnits from src/unit-value.js: parse both inputs, collecting
missing-unit failures for retry; with two failures raise the UnitsError about
both values missing units; with one failure at index i, re-parse input i with
the units of values[toggle i] — since toggle is 1-based (toggle 1 = 2) while
the indices here are 0-based, toggle 1 indexes past the end of the values
array and the resulting read of undefined raises a TypeError; finally the two
resolved unit texts must be identical or a UnitsError is raised. -/
def getValuesAndUnits (v1 v2 : JSValue) (u : Option JStr) : Except JSError GVU :=
  match tryParseLoop [v1, v2] u 0 with
  | .error e => .error e
  | .ok (values0, retry) =>
    let step : Except JSError (List (Option UnitValue)) :=
      match retry with
      | [] => .ok values0
      | [i] =>
        match values0.getD (toggle i) none with
        | some w =>
          match UnitValue.parse ([v1, v2].getD i .other) (some w.units) with
          | .ok q => .ok (values0.set i (some q))
          | .error e => .error e
        | none => .error (.typeError undefinedUnitsMsg)
      | _ => .error (.unitsError bothMissingMsg)
    match step with
    | .error e => .error e
    | .ok values =>
      match values.getD 0 none, values.getD 1 none with
      | some q0, some q1 =>
        if q0.units ≠ q1.units then .error (.unitsError mismatchMsg)
        else .ok ⟨q0.value, q1.value, q0.units⟩
      | _, _ => .error (.typeError undefinedUnitsMsg)

/-- Static UnitValue.add: reconcile, then combine the magnitudes and attach
the reconciled units to a new UnitValue. -/
def UnitValue.add (v1 v2 : JSValue) (units : Option JStr) : Except JSError UnitValue :=
  match getValuesAndUnits v1 v2 units with
  | .ok r => .ok ⟨r.value1 + r.value2, r.units⟩
  | .error e => .error e

/-- Static UnitValue.subtract. -/
def UnitValue.subtract (v1 v2 : JSValue) (units : Option JStr) : Except JSError UnitValue :=
  match getValuesAndUnits v1 v2 units with
  | .ok r => .ok ⟨r.value1 - r.value2, r.units⟩
  | .error e => .error e

/-- Static UnitValue.divide. Division is exact rational division; the
JavaScript division by zero (Infinity or NaN) is outside the modelled domain
and is not exercised by any claim. -/
def UnitValue.divide (v1 v2 : JSValue) (units : Option JStr) : Except JSError UnitValue :=
  match getValuesAndUnits v1 v2 units with
  | .ok r => .ok ⟨r.value1 / r.value2, r.units⟩
  | .error e => .error e

/-- Static UnitValue.multiply. -/
def UnitValue.multiply (v1 v2 : JSValue) (units : Option JStr) : Except JSError UnitValue :=
  match getValuesAndUnits v1 v2 units with
  | .ok r => .ok ⟨r.value1 * r.value2, r.units⟩
  | .error e => .error e

/-- UnitValue#toString: the display form of the value followed directly by
the units. -/
def UnitValue.jsToString (q : UnitValue) : JStr :=
  jsNumToString q.value ++ q.units

/-!
Store-passing layer. JavaScript UnitValue objects have identity and
UnitValue.parse mutates the units field of a UnitValue argument in place when
a truthy explicit units argument is given. To make that observable the
functions below re-run the same source code with UnitValue arguments given as
references (indices) into a store of UnitValue objects; fresh objects built
by the number/string path are appended to the store.
-/

abbrev Store := List UnitValue

/-- The runtime shapes of UnitValue.parse arguments, with UnitValue objects
as store references. -/
inductive JSRef where
  | num (n : ℚ)
  | boxedNum (n : ℚ)
  | str (s : JStr)
  | boxedStr (s : JStr)
  | uvRef (r : Nat)
  | other
deriving DecidableEq, Repr

/-- The number/string arm of UnitValue.parse at store level: the freshly
parsed UnitValue is a new object, appended to the store. -/
def parseTextRef (s : JStr) (units : Option JStr) (h : Store) :
    Except JSError (Nat × Store) :=
  match parseText s units with
  | .ok q => .ok (h.length, h ++ [applyUnitsOverride q units])
  | .error e => .error e

/-- UnitValue.parse at store level. On a UnitValue argument the function
returns the argument reference itself, and a truthy explicit units argument
overwrites the units field of the referenced object in place. References in
this development are always in range, so the out-of-range default never
arises. -/
def parseRef (v : JSRef) (units : Option JStr) (h : Store) :
    Except JSError (Nat × Store) :=
  match v with
  | .num n => parseTextRef (jsNumToString n) units h
  | .boxedNum n => parseTextRef (jsNumToString n) units h
  | .str s => parseTextRef s units h
  | .boxedStr s => parseTextRef s units h
  | .uvRef r =>
    match units with
    | some u =>
      if u = [] then .ok (r, h)
      else .ok (r, h.set r { h.getD r default with units := u })
    | none => .ok (r, h)
  | .other => .error (.typeError badTypeMsg)

/-- The for-loop of getValuesAndUnits at store level. -/
def tryParseLoopRef (vs : List JSRef) (u : Option JStr) (i : Nat) (h : Store) :
    Except JSError (List (Option Nat) × List Nat × Store) :=
  match vs with
  | [] => .ok ([], [], h)
  | w :: rest =>
    match parseRef w u h with
    | .ok (r, h1) =>
      match tryParseLoopRef rest u (i + 1) h1 with
      | .ok (values, retry, h2) => .ok (some r :: values, retry, h2)
      | .error e => .error e
    | .error (.unitsError _) =>
      match tryParseLoopRef rest u (i + 1) h with
      | .ok (values, retry, h2) => .ok (none :: values, i :: retry, h2)
      | .error e => .error e
    | .error e => .error e

/-- getValuesAndUnits at store level, mirroring the value-level definition
statement by statement. -/
def getValuesAndUnitsRef (v1 v2 : JSRef) (u : Option JStr) (h : Store) :
    Except JSError (GVU × Store) :=
  match tryParseLoopRef [v1, v2] u 0 h with
  | .error e => .error e
  | .ok (values0, retry, h1) =>
    let step : Except JSError (List (Option Nat) × Store) :=
      match retry with
      | [] => .ok (values0, h1)
      | [i] =>
        match values0.getD (toggle i) none with
        | some wr =>
          match parseRef ([v1, v2].getD i .other) (some (h1.getD wr default).units) h1 with
          | .ok (r, h2) => .ok (values0.set i (some r), h2)
          | .error e => .error e
        | none => .error (.typeError undefinedUnitsMsg)
      | _ => .error (.unitsError bothMissingMsg)
    match step with
    | .error e => .error e
    | .ok (values, h2) =>
      match values.getD 0 none, values.getD 1 none with
      | some r0, some r1 =>
        let q0 := h2.getD r0 default
        let q1 := h2.getD r1 default
        if q0.units ≠ q1.units then .error (.unitsError mismatchMsg)
        else .ok (⟨q0.value, q1.value, q0.units⟩, h2)
      | _, _ => .error (.typeError undefinedUnitsMsg)

/-- Static UnitValue.add at store level; the result is a freshly constructed
value, returned alongside the final store. -/
def addRef (v1 v2 : JSRef) (units : Option JStr) (h : Store) :
    Except JSError (UnitValue × Store) :=
  match getValuesAndUnitsRef v1 v2 units h with
  | .ok (r, h1) => .ok (⟨r.value1 + r.value2, r.units⟩, h1)
  | .error e => .error e

/-- Static UnitValue.subtract at store level. -/
def subtractRef (v1 v2 : JSRef) (units : Option JStr) (h : Store) :
    Except JSError (UnitValue × Store) :=
  match getValuesAndUnitsRef v1 v2 units h with
  | .ok (r, h1) => .ok (⟨r.value1 - r.value2, r.units⟩, h1)
  | .error e => .error e

/-- Static UnitValue.divide at store level. -/
def divideRef (v1 v2 : JSRef) (units : Option JStr) (h : Store) :
    Except JSError (UnitValue × Store) :=
  match getValuesAndUnitsRef v1 v2 units h with
  | .ok (r, h1) => .ok (⟨r.value1 / r.value2, r.units⟩, h1)
  | .error e => .error e

/-- Static UnitValue.multiply at store level. -/
def multiplyRef (v1 v2 : JSRef) (units : Option JStr) (h : Store) :
    Except JSError (UnitValue × Store) :=
  match getValuesAndUnitsRef v1 v2 units h with
  | .ok (r, h1) => .ok (⟨r.value1 * r.value2, r.units⟩, h1)
  | .error e => .error e

/-- The instance method form self.add(v, units), which delegates to the
static form with this as the first argument. -/
def UnitValue.addM (self : Nat) (v : JSRef) (units : Option JStr) (h : Store) :
    Except JSError (UnitValue × Store) :=
  addRef (.uvRef self) v units h

/-- The instance method form self.subtract(v, units). -/
def UnitValue.subtractM (self : Nat) (v : JSRef) (units : Option JStr) (h : Store) :
    Except JSError (UnitValue × Store) :=
  subtractRef (.uvRef self) v units h

/-- The instance method form self.divide(v, units). -/
def UnitValue.divideM (self : Nat) (v : JSRef) (units : Option JStr) (h : Store) :
    Except JSError (UnitValue × Store) :=
  divideRef (.uvRef self) v units h

/-- The instance method form self.multiply(v, units). -/
def UnitValue.multiplyM (self : Nat) (v : JSRef) (units : Option JStr) (h : Store) :
    Except JSError (UnitValue × Store) :=
  multiplyRef (.uvRef self) v units h

/-- Modelled from the spec: a valid unit label for the decomposition pattern
(amended form): nonempty, first character not whitespace, a digit, or a dot,
and no line terminator among the remaining characters. -/
def specLabel (label : JStr) : Prop :=
  match label with
  | [] => False
  | c :: rest =>
    isJsSpace c = false ∧ c.isDigit = false ∧ c ≠ '.' ∧
      ∀ d ∈ rest, isLineTerminator d = false

/-- Modelled from the spec: the numeric part of the decomposition — one or
more digits, optionally followed by a decimal point and more digits. -/
def specNumParts (ip fp : JStr) : Prop :=
  ip ≠ [] ∧ (∀ c ∈ ip, c.isDigit = true) ∧
    (fp = [] ∨ ∃ ds, fp = '.' :: ds ∧ ∀ c ∈ ds, c.isDigit = true)

/-- Modelled from the spec: the optional single whitespace separator. -/
def specSep (sep : JStr) : Prop :=
  sep = [] ∨ ∃ w, sep = [w] ∧ isJsSpace w = true

/-- Modelled from the spec (amended form): the strings that decompose. -/
def specShape (s : JStr) : Prop :=
  ∃ ip fp sep label, s = ip ++ fp ++ sep ++ label ∧
    specNumParts ip fp ∧ specSep sep ∧ specLabel label

/-- The unit label exactly as the claim words it: its first character is not
a digit or a dot (with no condition on whitespace or line terminators). -/
def claimLabel (label : JStr) : Prop :=
  match label with
  | [] => False
  | c :: _ => c.isDigit = false ∧ c ≠ '.'

/-- The decomposition shape exactly as the claim words it. -/
def claimShape (s : JStr) : Prop :=
  ∃ ip fp sep label, s = ip ++ fp ++ sep ++ label ∧
    specNumParts ip fp ∧ specSep sep ∧ claimLabel label

/-!
Helper lemmas shared by the claim theorems.
-/

/-- A successful UnitValue.parse with a truthy (nonempty) explicit units
argument always carries exactly those units, because the final override step
applies them unconditionally. -/
theorem parse_ok_units_eq (v : JSValue) (u : JStr) (q : UnitValue) (hu : u ≠ [])
    (h : UnitValue.parse v (some u) = .ok q) : q.units = u := by
  cases v with
  | num n =>
    revert h
    cases hp : parseText (jsNumToString n) (some u) with
    | ok w =>
      simp [UnitValue.parse, hp, applyUnitsOverride, hu]
      intro h
      simp [← h]
    | error e => simp [UnitValue.parse, hp]
  | boxedNum n =>
    revert h
    cases hp : parseText (jsNumToString n) (some u) with
    | ok w =>
      simp [UnitValue.parse, hp, applyUnitsOverride, hu]
      intro h
      simp [← h]
    | error e => simp [UnitValue.parse, hp]
  | str s =>
    revert h
    cases hp : parseText s (some u) with
    | ok w =>
      simp [UnitValue.parse, hp, applyUnitsOverride, hu]
      intro h
      simp [← h]
    | error e => simp [UnitValue.parse, hp]
  | boxedStr s =>
    revert h
    cases hp : parseText s (some u) with
    | ok w =>
      simp [UnitValue.parse, hp, applyUnitsOverride, hu]
      intro h
      simp [← h]
    | error e => simp [UnitValue.parse, hp]
  | uv w =>
    simp [UnitValue.parse, applyUnitsOverride, hu] at h
    simp [← h]
  | other => simp [UnitValue.parse] at h

/-!
Claim theorems.
-/

unseal Rat.add Rat.mul Rat.inv Rat.sub in
/-- C1 (code bug evidence): the unit-inference path of getValuesAndUnits works
when the first input is the bare one (the spec example (3, "2px") resolves to
3 and 2 with units px), but when the second input is the bare one the code
computes toggle 1 = 2 — toggle is written for the 1-based indices of its own
documentation and tests while the loop indices are 0-based — and the read of
units from the missing values entry raises a TypeError instead of inferring
px as the spec describes. -/
theorem getValuesAndUnits_second_bare_input_typeError :
    getValuesAndUnits (.str "2px".data) (.num 3) none =
      .error (.typeError undefinedUnitsMsg) ∧
    getValuesAndUnits (.num 3) (.str "2px".data) none =
      .ok ⟨3, 2, "px".data⟩ := by
  constructor
  · rfl
  · decide

/-- C2: when both parse attempts succeed with no explicit units and the two
resolved unit texts differ, getValuesAndUnits fails with the UnitsError kind
carrying the mismatch message. -/
theorem getValuesAndUnits_mismatch_unitsError
    (v1 v2 : JSValue) (q1 q2 : UnitValue)
    (h1 : UnitValue.parse v1 none = .ok q1)
    (h2 : UnitValue.parse v2 none = .ok q2)
    (hne : q1.units ≠ q2.units) :
    getValuesAndUnits v1 v2 none = .error (.unitsError mismatchMsg) := by
  simp [getValuesAndUnits, tryParseLoop, h1, h2, hne]

/-- C2 witness at the spec example ("2px", "10em"). -/
theorem getValuesAndUnits_mismatch_unitsError_witness :
    getValuesAndUnits (.str "2px".data) (.str "10em".data) none =
      .error (.unitsError mismatchMsg) :=
  getValuesAndUnits_mismatch_unitsError (.str "2px".data) (.str "10em".data)
    ⟨parseFloat "2".data, "px".data⟩ ⟨parseFloat "10".data, "em".data⟩
    rfl rfl (by decide)

unseal Rat.add Rat.mul Rat.inv Rat.sub in
/-- C3 counterexample: with the explicit units argument being the empty
string — which the claim quantification covers but JavaScript truthiness
ignores — both parse attempts succeed, yet the mismatch branch fires, and in
the agreeing variant the returned units are the original ones rather than
the supplied ones. -/
theorem explicit_empty_units_mismatch_reachable :
    UnitValue.parse (.str "2px".data) (some []) = .ok ⟨2, "px".data⟩ ∧
    UnitValue.parse (.str "3em".data) (some []) = .ok ⟨3, "em".data⟩ ∧
    getValuesAndUnits (.str "2px".data) (.str "3em".data) (some []) =
      .error (.unitsError mismatchMsg) := by
  refine ⟨by decide, by decide, ?_⟩
  decide

/-- C3 (amended): for every truthy (nonempty) explicit units argument u, if
both parse attempts of step 1 succeed then the final units-mismatch check
cannot fail and the returned units equal u. -/
theorem explicit_truthy_units_force_agreement
    (v1 v2 : JSValue) (u : JStr) (q1 q2 : UnitValue) (hu : u ≠ [])
    (h1 : UnitValue.parse v1 (some u) = .ok q1)
    (h2 : UnitValue.parse v2 (some u) = .ok q2) :
    getValuesAndUnits v1 v2 (some u) = .ok ⟨q1.value, q2.value, u⟩ := by
  have e1 := parse_ok_units_eq v1 u q1 hu h1
  have e2 := parse_ok_units_eq v2 u q2 hu h2
  simp [getValuesAndUnits, tryParseLoop, h1, h2, e1, e2]

unseal Rat.add Rat.mul Rat.inv Rat.sub in
/-- C3 witness at ("2px", "10em") with explicit units rem. -/
theorem explicit_truthy_units_force_agreement_witness :
    getValuesAndUnits (.str "2px".data) (.str "10em".data) (some "rem".data) =
      .ok ⟨2, 10, "rem".data⟩ :=
  explicit_truthy_units_force_agreement (.str "2px".data) (.str "10em".data)
    "rem".data ⟨2, "rem".data⟩ ⟨10, "rem".data⟩
    (by decide) (by decide) (by decide)

/-- C5: the reconciliation error policy. Two missing-unit failures with no
explicit units produce the UnitsError about both values missing units; a
failure of any other kind in either attempt propagates unchanged (whatever
the other attempt did). -/
theorem reconciliation_error_policy :
    (∀ v1 v2 m1 m2, UnitValue.parse v1 none = .error (.unitsError m1) →
        UnitValue.parse v2 none = .error (.unitsError m2) →
        getValuesAndUnits v1 v2 none = .error (.unitsError bothMissingMsg)) ∧
    (∀ v1 v2 u e, UnitValue.parse v1 u = .error e →
        (∀ m, e ≠ .unitsError m) →
        getValuesAndUnits v1 v2 u = .error e) ∧
    (∀ v1 v2 u e q1, UnitValue.parse v1 u = .ok q1 →
        UnitValue.parse v2 u = .error e →
        (∀ m, e ≠ .unitsError m) →
        getValuesAndUnits v1 v2 u = .error e) ∧
    (∀ v1 v2 u e m1, UnitValue.parse v1 u = .error (.unitsError m1) →
        UnitValue.parse v2 u = .error e →
        (∀ m, e ≠ .unitsError m) →
        getValuesAndUnits v1 v2 u = .error e) := by
  refine ⟨?_, ?_, ?_, ?_⟩
  · intro v1 v2 m1 m2 h1 h2
    simp [getValuesAndUnits, tryParseLoop, h1, h2]
  · intro v1 v2 u e h1 hne
    cases e with
    | unitsError m => exact absurd rfl (hne m)
    | typeError m => simp [getValuesAndUnits, tryParseLoop, h1]
    | plainError m => simp [getValuesAndUnits, tryParseLoop, h1]
  · intro v1 v2 u e q1 h1 h2 hne
    cases e with
    | unitsError m => exact absurd rfl (hne m)
    | typeError m => simp [getValuesAndUnits, tryParseLoop, h1, h2]
    | plainError m => simp [getValuesAndUnits, tryParseLoop, h1, h2]
  · intro v1 v2 u e m1 h1 h2 hne
    cases e with
    | unitsError m => exact absurd rfl (hne m)
    | typeError m => simp [getValuesAndUnits, tryParseLoop, h1, h2]
    | plainError m => simp [getValuesAndUnits, tryParseLoop, h1, h2]

/-- C5 witness: reconciling (1, 2) with no explicit units fails with the
both-missing UnitsError, via the first conjunct at the missing-units parse
failures of the two bare numbers. -/
theorem reconciliation_error_policy_witness :
    getValuesAndUnits (.num 1) (.num 2) none =
      .error (.unitsError bothMissingMsg) :=
  reconciliation_error_policy.1 (.num 1) (.num 2)
    missingUnitsMsg missingUnitsMsg rfl rfl

unseal Rat.add Rat.mul Rat.inv Rat.sub in
/-- C4: whenever reconciliation succeeds with magnitudes x, y and units L,
each static operation returns a new UnitValue combining x and y with the
corresponding operator under units L; concretely add(1, 2, "px") is the
quantity 3 px and its string form is "3px". Magnitudes are modelled as exact
rationals, so each operator is the exact counterpart of the floating-point
one. -/
theorem static_ops_combine_reconciled :
    (∀ v1 v2 u x y L, getValuesAndUnits v1 v2 u = .ok ⟨x, y, L⟩ →
      UnitValue.add v1 v2 u = .ok ⟨x + y, L⟩ ∧
      UnitValue.subtract v1 v2 u = .ok ⟨x - y, L⟩ ∧
      UnitValue.multiply v1 v2 u = .ok ⟨x * y, L⟩ ∧
      UnitValue.divide v1 v2 u = .ok ⟨x / y, L⟩) ∧
    UnitValue.add (.num 1) (.num 2) (some "px".data) = .ok ⟨3, "px".data⟩ ∧
    UnitValue.jsToString ⟨3, "px".data⟩ = "3px".data := by
  refine ⟨?_, by decide, rfl⟩
  intro v1 v2 u x y L h
  exact ⟨by simp [UnitValue.add, h], by simp [UnitValue.subtract, h],
    by simp [UnitValue.multiply, h], by simp [UnitValue.divide, h]⟩

unseal Rat.add Rat.mul Rat.inv Rat.sub in
/-- C4 witness: the first conjunct applied at the reconciliation of
(1, 2, "px"). -/
theorem static_ops_combine_reconciled_witness :
    UnitValue.add (.num 1) (.num 2) (some "px".data) = .ok ⟨1 + 2, "px".data⟩ :=
  (static_ops_combine_reconciled.1 (.num 1) (.num 2) (some "px".data)
    1 2 "px".data (by decide)).1

/-- C6 counterexample: passing a UnitValue together with the explicit empty
units string — an explicit unit argument by the claim quantification, but
falsy in JavaScript — does not overwrite the units: the result keeps px
rather than taking the supplied empty units. -/
theorem parse_empty_units_no_override :
    UnitValue.parse (.uv ⟨2, "px".data⟩) (some []) = .ok ⟨2, "px".data⟩ ∧
    UnitValue.parse (.uv ⟨2, "px".data⟩) (some []) ≠ .ok ⟨2, []⟩ := by
  exact ⟨rfl, by decide⟩

/-- C6 (amended): parsing an existing UnitValue with no explicit units
returns it unchanged (also at store level: the same reference with an
untouched store); with a truthy (nonempty) explicit units argument u the
result carries units u with unchanged value, and at store level the returned
reference is the argument reference itself whose store cell had its units
overwritten in place — the observable mutation of the caller's object. -/
theorem parse_unitvalue_passthrough_and_override (q : UnitValue) (u : JStr) :
    UnitValue.parse (.uv q) none = .ok q ∧
    parseRef (.uvRef 0) none [q] = .ok (0, [q]) ∧
    (u ≠ [] →
      UnitValue.parse (.uv q) (some u) = .ok ⟨q.value, u⟩ ∧
      parseRef (.uvRef 0) (some u) [q] = .ok (0, [⟨q.value, u⟩])) := by
  refine ⟨rfl, rfl, fun hu => ⟨?_, ?_⟩⟩
  · simp [UnitValue.parse, applyUnitsOverride, hu]
  · simp [parseRef, hu]

/-- C6 witness: the override conjunct at the quantity 2 px with explicit
units em. -/
theorem parse_unitvalue_passthrough_and_override_witness :
    UnitValue.parse (.uv ⟨2, "px".data⟩) (some "em".data) = .ok ⟨2, "em".data⟩ :=
  ((parse_unitvalue_passthrough_and_override ⟨2, "px".data⟩ "em".data).2.2
    (by decide)).1

/-- C10: on two UnitValue operands with any truthy explicit units argument u,
every arithmetic operation (the instance forms shown here delegate to the
static forms) both returns the freshly combined UnitValue and, as a side
effect of the parse calls inside reconciliation, overwrites the units field
of both operand objects in the store with u. -/
theorem arithmetic_mutates_both_operands
    (q1 q2 : UnitValue) (u : JStr) (hu : u ≠ []) :
    UnitValue.addM 0 (.uvRef 1) (some u) [q1, q2] =
      .ok (⟨q1.value + q2.value, u⟩, [⟨q1.value, u⟩, ⟨q2.value, u⟩]) ∧
    UnitValue.subtractM 0 (.uvRef 1) (some u) [q1, q2] =
      .ok (⟨q1.value - q2.value, u⟩, [⟨q1.value, u⟩, ⟨q2.value, u⟩]) ∧
    UnitValue.multiplyM 0 (.uvRef 1) (some u) [q1, q2] =
      .ok (⟨q1.value * q2.value, u⟩, [⟨q1.value, u⟩, ⟨q2.value, u⟩]) ∧
    UnitValue.divideM 0 (.uvRef 1) (some u) [q1, q2] =
      .ok (⟨q1.value / q2.value, u⟩, [⟨q1.value, u⟩, ⟨q2.value, u⟩]) := by
  refine ⟨?_, ?_, ?_, ?_⟩ <;>
    simp [UnitValue.addM, UnitValue.subtractM, UnitValue.multiplyM,
      UnitValue.divideM, addRef, subtractRef, multiplyRef, divideRef,
      getValuesAndUnitsRef, tryParseLoopRef, parseRef, hu]

unseal Rat.add Rat.mul Rat.inv Rat.sub in
/-- C10 witness: adding the quantities 2 px and 10 em with explicit units rem
returns 12 rem and leaves both operands mutated to rem. -/
theorem arithmetic_mutates_both_operands_witness :
    UnitValue.addM 0 (.uvRef 1) (some "rem".data) [⟨2, "px".data⟩, ⟨10, "em".data⟩] =
      .ok (⟨(2 : ℚ) + 10, "rem".data⟩, [⟨2, "rem".data⟩, ⟨10, "rem".data⟩]) :=
  (arithmetic_mutates_both_operands ⟨2, "px".data⟩ ⟨10, "em".data⟩
    "rem".data (by decide)).1

/-!
Lemmas about the decomposition pattern, shared by the parseString claims.
-/

/-- A digit character is not in the whitespace class. -/
theorem not_space_of_digit {c : Char} (h : c.isDigit = true) : isJsSpace c = false := by
  cases hs : isJsSpace c with
  | false => rfl
  | true =>
    exfalso
    simp only [isJsSpace, decide_eq_true_eq, List.mem_cons, List.not_mem_nil,
      or_false] at hs
    rcases hs with rfl|rfl|rfl|rfl|rfl|rfl|rfl|rfl|rfl <;> exact absurd h (by decide)

/-- A digit character is not the dot. -/
theorem ne_dot_of_digit {c : Char} (h : c.isDigit = true) : c ≠ '.' := by
  intro hc
  subst hc
  exact absurd h (by decide)

/-- A whitespace-class character is not a digit. -/
theorem not_digit_of_space {c : Char} (h : isJsSpace c = true) : c.isDigit = false := by
  simp only [isJsSpace, decide_eq_true_eq, List.mem_cons, List.not_mem_nil,
    or_false] at h
  rcases h with rfl|rfl|rfl|rfl|rfl|rfl|rfl|rfl|rfl <;> decide

/-- A whitespace-class character is not the dot. -/
theorem ne_dot_of_space {c : Char} (h : isJsSpace c = true) : c ≠ '.' := by
  simp only [isJsSpace, decide_eq_true_eq, List.mem_cons, List.not_mem_nil,
    or_false] at h
  rcases h with rfl|rfl|rfl|rfl|rfl|rfl|rfl|rfl|rfl <;> decide

/-- Splitting takeWhile and dropWhile around an all-digit prefix followed by
a non-digit character. -/
theorem takeWhile_digit_append (l1 : List Char) (c : Char) (t : List Char)
    (h1 : ∀ a ∈ l1, Char.isDigit a = true) (hc : Char.isDigit c = false) :
    (l1 ++ c :: t).takeWhile Char.isDigit = l1 ∧
      (l1 ++ c :: t).dropWhile Char.isDigit = c :: t := by
  constructor
  · rw [List.takeWhile_append_of_pos h1,
      List.takeWhile_cons_of_neg (by simp [hc]), List.append_nil]
  · rw [List.dropWhile_append_of_pos h1,
      List.dropWhile_cons_of_neg (by simp [hc])]

/-- validUnitsGroup is the computable form of the spec-side label predicate. -/
theorem validUnitsGroup_iff (g : JStr) : validUnitsGroup g = true ↔ specLabel g := by
  cases g with
  | nil => simp [validUnitsGroup, specLabel]
  | cons c rest =>
    simp [validUnitsGroup, specLabel, List.all_eq_true, Bool.and_eq_true,
      Bool.not_eq_true', and_assoc]

/-- The greedy decomposition succeeds on every well-formed split: a match of
the full pattern on numeric part ++ separator ++ label returns exactly the
numeric part and the label. -/
theorem unitValueMatch_of_split (ip fp sep label : JStr)
    (hnum : specNumParts ip fp) (hsep : specSep sep) (hlab : specLabel label) :
    unitValueMatch (ip ++ fp ++ sep ++ label) = some (ip ++ fp, label) := by
  obtain ⟨hip, hipd, hfp⟩ := hnum
  cases label with
  | nil => simp [specLabel] at hlab
  | cons c rest =>
  simp only [specLabel] at hlab
  obtain ⟨hcs, hcd, hcdot, hrest⟩ := hlab
  have hvg : validUnitsGroup (c :: rest) = true := by
    rw [validUnitsGroup_iff]
    exact ⟨hcs, hcd, hcdot, hrest⟩
  rcases hfp with rfl | ⟨ds, rfl, hds⟩
  · rcases hsep with rfl | ⟨w, rfl, hw⟩
    · have h := takeWhile_digit_append ip c rest hipd hcd
      simp [unitValueMatch, h.1, h.2, hip, uvmTail, hcs, hcdot, hvg]
    · have h := takeWhile_digit_append ip w (c :: rest) hipd (not_digit_of_space hw)
      have hwd : w ≠ '.' := ne_dot_of_space hw
      simp only [List.append_nil, List.nil_append, List.singleton_append,
        List.cons_append] at h
      simp [unitValueMatch, h.1, h.2, hip, uvmTail, hw, hwd, hvg]
  · rcases hsep with rfl | ⟨w, rfl, hw⟩
    · have h1 := takeWhile_digit_append ip '.' (ds ++ c :: rest) hipd (by decide)
      have h2 := takeWhile_digit_append ds c rest hds hcd
      simp only [List.append_nil, List.cons_append, List.append_assoc] at h1 h2
      simp [unitValueMatch, List.append_assoc, h1.1, h1.2, h2.1, h2.2, hip,
        uvmTail, hcs, hcdot, hvg]
    · have h1 := takeWhile_digit_append ip '.' (ds ++ w :: c :: rest) hipd (by decide)
      have h2 := takeWhile_digit_append ds w (c :: rest) hds (not_digit_of_space hw)
      simp only [List.singleton_append, List.cons_append, List.append_assoc] at h1 h2
      simp [unitValueMatch, List.append_assoc, h1.1, h1.2, h2.1, h2.2, hip,
        uvmTail, hw, hvg]

/-- Inversion of the final matching stage: a success returns the numeric
group unchanged together with a valid units group, and the remainder it
consumed was an optional single whitespace in front of that group. -/
theorem uvmTail_inv (g1 r2 a b : JStr) (h : uvmTail g1 r2 = some (a, b)) :
    a = g1 ∧ validUnitsGroup b = true ∧ ∃ sep, specSep sep ∧ r2 = sep ++ b := by
  cases r2 with
  | nil => simp [uvmTail] at h
  | cons c t =>
    by_cases hs : isJsSpace c
    · by_cases hv : validUnitsGroup t
      · simp [uvmTail, hs, hv] at h
        exact ⟨h.1.symm, h.2 ▸ hv, [c], Or.inr ⟨c, rfl, hs⟩, by rw [← h.2]; rfl⟩
      · simp [uvmTail, hs, hv] at h
    · by_cases hv : validUnitsGroup (c :: t)
      · simp [uvmTail, hs, hv] at h
        exact ⟨h.1.symm, h.2 ▸ hv, [], Or.inl rfl, by rw [← h.2]; rfl⟩
      · simp [uvmTail, hs, hv] at h

/-- Inversion of the full pattern: every successful match arises from a
well-formed split, with the numeric group equal to its numeric part and the
units group equal to its label. -/
theorem split_of_unitValueMatch (s g1 g2 : JStr)
    (h : unitValueMatch s = some (g1, g2)) :
    ∃ ip fp sep, s = ip ++ fp ++ sep ++ g2 ∧ g1 = ip ++ fp ∧
      specNumParts ip fp ∧ specSep sep ∧ specLabel g2 := by
  by_cases hd : s.takeWhile Char.isDigit = []
  · simp [unitValueMatch, hd] at h
  · have hsplit := List.takeWhile_append_dropWhile Char.isDigit s
    have hd1d : ∀ a ∈ s.takeWhile Char.isDigit, a.isDigit = true :=
      fun a ha => List.mem_takeWhile_imp ha
    by_cases hh : (s.dropWhile Char.isDigit).head? = some '.'
    · obtain ⟨t, hr1⟩ : ∃ t, s.dropWhile Char.isDigit = '.' :: t := by
        cases hr : s.dropWhile Char.isDigit with
        | nil => rw [hr] at hh; simp at hh
        | cons x xs =>
          rw [hr] at hh
          simp only [List.head?_cons, Option.some.injEq] at hh
          exact ⟨xs, by rw [hh]⟩
      have hu : uvmTail (s.takeWhile Char.isDigit ++ '.' :: (t.takeWhile Char.isDigit))
          (t.dropWhile Char.isDigit) = some (g1, g2) := by
        rw [← h]
        simp [unitValueMatch, hd, hh, hr1]
      obtain ⟨ha, hb, sep, hsep, hr2⟩ := uvmTail_inv _ _ _ _ hu
      refine ⟨s.takeWhile Char.isDigit, '.' :: (t.takeWhile Char.isDigit), sep,
        ?_, ha, ⟨hd, hd1d, Or.inr ⟨_, rfl, fun a ha => List.mem_takeWhile_imp ha⟩⟩,
        hsep, (validUnitsGroup_iff _).1 hb⟩
      have ht : t = List.takeWhile Char.isDigit t ++ (sep ++ g2) := by
        conv_lhs => rw [← List.takeWhile_append_dropWhile Char.isDigit t]
        rw [hr2]
      conv_lhs => rw [← hsplit, hr1, ht]
      simp
    · have hu : uvmTail (s.takeWhile Char.isDigit) (s.dropWhile Char.isDigit) =
          some (g1, g2) := by
        rw [← h]
        simp [unitValueMatch, hd, hh]
      obtain ⟨ha, hb, sep, hsep, hr2⟩ := uvmTail_inv _ _ _ _ hu
      refine ⟨s.takeWhile Char.isDigit, [], sep, ?_,
        by rw [ha]; simp, ⟨hd, hd1d, Or.inl rfl⟩, hsep,
        (validUnitsGroup_iff _).1 hb⟩
      conv_lhs => rw [← hsplit, hr2]
      simp

/-- Inversion of the bare-number pattern: a nonempty digit prefix after which
either nothing remains or a dot followed only by digits. -/
theorem numberMatch_inv (s : JStr) (hs : numberMatch s = true) :
    s.takeWhile Char.isDigit ≠ [] ∧
      (s.dropWhile Char.isDigit = [] ∨
        ∃ ds, s.dropWhile Char.isDigit = '.' :: ds ∧ ∀ c ∈ ds, c.isDigit = true) := by
  simp only [numberMatch, Bool.and_eq_true, Bool.or_eq_true, decide_eq_true_eq,
    beq_iff_eq, List.isEmpty_iff, List.all_eq_true] at hs
  refine ⟨hs.1, ?_⟩
  rcases hs.2 with h | ⟨hh, hall⟩
  · exact Or.inl h
  · cases hr : s.dropWhile Char.isDigit with
    | nil => exact Or.inl rfl
    | cons x xs =>
      rw [hr] at hh hall
      simp only [List.head?_cons, Option.some.injEq] at hh
      exact Or.inr ⟨xs, by rw [hh], fun c hc => hall c hc⟩

/-- Appending a valid units group to a bare-number string matches, returning
the two parts unchanged. -/
theorem unitValueMatch_numeric_append (s u : JStr)
    (hs : numberMatch s = true) (hu : validUnitsGroup u = true) :
    unitValueMatch (s ++ u) = some (s, u) := by
  obtain ⟨hd, hrest⟩ := numberMatch_inv s hs
  have hsplit := List.takeWhile_append_dropWhile Char.isDigit s
  have hdd : ∀ a ∈ s.takeWhile Char.isDigit, a.isDigit = true :=
    fun a ha => List.mem_takeWhile_imp ha
  obtain ⟨c, rest, rfl⟩ : ∃ c rest, u = c :: rest := by
    cases u with
    | nil => simp [validUnitsGroup] at hu
    | cons c rest => exact ⟨c, rest, rfl⟩
  rw [validUnitsGroup_iff] at hu
  obtain ⟨hcs, hcd, hcdot, hcrest⟩ := hu
  rcases hrest with hnil | ⟨ds, hds, hdsd⟩
  · have hse : s = s.takeWhile Char.isDigit := by
      rw [hnil, List.append_nil] at hsplit
      exact hsplit.symm
    have h := unitValueMatch_of_split (s.takeWhile Char.isDigit) [] [] (c :: rest)
      ⟨hd, hdd, Or.inl rfl⟩ (Or.inl rfl) ⟨hcs, hcd, hcdot, hcrest⟩
    rw [hse]
    simpa using h
  · have hse : s = s.takeWhile Char.isDigit ++ '.' :: ds := by
      rw [hds] at hsplit
      exact hsplit.symm
    have h := unitValueMatch_of_split (s.takeWhile Char.isDigit) ('.' :: ds) []
      (c :: rest) ⟨hd, hdd, Or.inr ⟨ds, rfl, hdsd⟩⟩ (Or.inl rfl)
      ⟨hcs, hcd, hcdot, hcrest⟩
    rw [hse]
    simpa using h

/-- C7 counterexample: the string "1p\nx" fits the shape exactly as the claim
words it — digits, no separator, then a unit label whose first character p is
neither a digit nor a dot — yet parseString raises the TypeError, because the
pattern for the rest of the label does not match the line terminator. -/
theorem parseString_rejects_lineterm_label :
    claimShape ['1', 'p', '\n', 'x'] ∧
    UnitValue.parseString ['1', 'p', '\n', 'x'] =
      .error (.typeError parseStringMsg) := by
  constructor
  · exact ⟨['1'], [], [], ['p', '\n', 'x'], rfl,
      ⟨by decide, by decide, Or.inl rfl⟩, Or.inl rfl, ⟨by decide, by decide⟩⟩
  · rfl

/-- C7 (amended): parseString succeeds exactly on the strings of the shape
digits, optionally a dot and more digits, optionally one whitespace
character, then a unit label whose first character is not a digit, a dot, or
whitespace and whose remaining characters contain no line terminator; on any
well-formed split the numeric portion and the label are returned verbatim
with the single separator whitespace consumed and excluded from both, and
every other string fails with the TypeError. -/
theorem parseString_decomposition :
    (∀ s : JStr, (∃ q, UnitValue.parseString s = .ok q) ↔ specShape s) ∧
    (∀ ip fp sep label, specNumParts ip fp → specSep sep → specLabel label →
      UnitValue.parseString (ip ++ fp ++ sep ++ label) =
        .ok ⟨parseFloat (ip ++ fp), label⟩) ∧
    (∀ s : JStr, ¬ specShape s →
      UnitValue.parseString s = .error (.typeError parseStringMsg)) := by
  have hver : ∀ ip fp sep label, specNumParts ip fp → specSep sep → specLabel label →
      UnitValue.parseString (ip ++ fp ++ sep ++ label) =
        .ok ⟨parseFloat (ip ++ fp), label⟩ := by
    intro ip fp sep label hnum hsep hlab
    have hm := unitValueMatch_of_split ip fp sep label hnum hsep hlab
    simp only [List.append_assoc] at hm
    simp [UnitValue.parseString, hm]
  have hfwd : ∀ s q, UnitValue.parseString s = .ok q → specShape s := by
    intro s q h
    cases hm : unitValueMatch s with
    | none => simp [UnitValue.parseString, hm] at h
    | some g =>
      obtain ⟨g1, g2⟩ := g
      obtain ⟨ip, fp, sep, hes, heg, hnum, hsep, hlab⟩ :=
        split_of_unitValueMatch s g1 g2 hm
      exact ⟨ip, fp, sep, g2, hes, hnum, hsep, hlab⟩
  refine ⟨fun s => ⟨fun hq => ?_, fun hs => ?_⟩, hver, fun s hns => ?_⟩
  · obtain ⟨q, h⟩ := hq
    exact hfwd s q h
  · obtain ⟨ip, fp, sep, label, rfl, hnum, hsep, hlab⟩ := hs
    exact ⟨_, hver ip fp sep label hnum hsep hlab⟩
  · cases hm : unitValueMatch s with
    | none => simp [UnitValue.parseString, hm]
    | some g =>
      obtain ⟨g1, g2⟩ := g
      exact absurd (hfwd s ⟨parseFloat g1, g2⟩
        (by simp [UnitValue.parseString, hm])) hns

/-- C7 witness: the verbatim-split conjunct at the decomposition of "10px". -/
theorem parseString_decomposition_witness :
    UnitValue.parseString ("10".data ++ [] ++ [] ++ "px".data) =
      .ok ⟨parseFloat ("10".data ++ []), "px".data⟩ :=
  parseString_decomposition.2.1 "10".data [] [] "px".data
    ⟨by decide, by decide, Or.inl rfl⟩ (Or.inl rfl)
    ⟨by decide, by decide, by decide, by decide⟩

unseal Rat.add Rat.mul Rat.inv Rat.sub in
/-- C8 counterexample: with n = 4 and the nonempty unit text " gold", whose
first character — a space — is neither a digit nor a dot, the separator
whitespace is consumed by the pattern, so the parsed units are "gold", not
" gold" as the claim requires. -/
theorem parseString_space_led_units_differ :
    Char.isDigit ' ' = false ∧ (' ' : Char) ≠ '.' ∧
    UnitValue.parseString (jsNumToString 4 ++ " gold".data) =
      .ok ⟨4, "gold".data⟩ ∧
    ("gold".data : JStr) ≠ " gold".data := by
  exact ⟨by decide, by decide, by decide, by decide⟩

/-- C8 (amended): for every numeric n whose display form is a plain unsigned
decimal re-parsing to n, and every nonempty unit text u whose first character
is not a digit, a dot, or whitespace and whose remaining characters contain
no line terminator, parseString of the concatenation of the display form of
n and u yields value n and units u. -/
theorem parseString_append_units (n : ℚ) (u : JStr)
    (hn : numberMatch (jsNumToString n) = true)
    (hpf : parseFloat (jsNumToString n) = n)
    (hu : validUnitsGroup u = true) :
    UnitValue.parseString (jsNumToString n ++ u) = .ok ⟨n, u⟩ := by
  simp [UnitValue.parseString, unitValueMatch_numeric_append _ _ hn hu, hpf]

unseal Rat.add Rat.mul Rat.inv Rat.sub in
/-- C8 witness at n = 3/2 (display form "1.5") and u = "em". -/
theorem parseString_append_units_witness :
    UnitValue.parseString (jsNumToString (3 / 2 : ℚ) ++ "em".data) =
      .ok ⟨(3 / 2 : ℚ), "em".data⟩ :=
  parseString_append_units (3 / 2 : ℚ) "em".data
    (by decide) (by decide) (by decide)

unseal Rat.add Rat.mul Rat.inv Rat.sub in
/-- C9 counterexample: the quantity -3 px is a well-constructed UnitValue
whose value has display form "-3" re-parsing to -3 (the proviso of the
claim), and whose units are ordinary, yet parseString of its string form
fails with the TypeError because the decomposition pattern admits no sign. -/
theorem roundtrip_fails_on_negative :
    parseFloat (jsNumToString (-3 : ℚ)) = (-3 : ℚ) ∧
    UnitValue.jsToString ⟨-3, "px".data⟩ = "-3px".data ∧
    UnitValue.parseString (UnitValue.jsToString ⟨-3, "px".data⟩) =
      .error (.typeError parseStringMsg) := by
  exact ⟨by decide, by decide, by decide⟩

/-- C9 (amended): for every UnitValue whose value displays as a plain
unsigned decimal re-parsing to the same value and whose units are nonempty,
do not begin with a digit, a dot, or whitespace, and contain no line
terminator, parseString of toString returns an equal UnitValue. -/
theorem toString_parseString_roundtrip (q : UnitValue)
    (hn : numberMatch (jsNumToString q.value) = true)
    (hpf : parseFloat (jsNumToString q.value) = q.value)
    (hu : validUnitsGroup q.units = true) :
    UnitValue.parseString (UnitValue.jsToString q) = .ok q := by
  simp [UnitValue.jsToString, UnitValue.parseString,
    unitValueMatch_numeric_append _ _ hn hu, hpf]

unseal Rat.add Rat.mul Rat.inv Rat.sub in
/-- C9 witness at the quantity 42 rem. -/
theorem toString_parseString_roundtrip_witness :
    UnitValue.parseString (UnitValue.jsToString ⟨42, "rem".data⟩) =
      .ok ⟨42, "rem".data⟩ :=
  toString_parseString_roundtrip ⟨42, "rem".data⟩
    (by decide) (by decide) (by decide)
